import Mathlib

/-!
Verification of the admission and monitoring core of RusEu/RadminTelegramBot.

Shallow embedding conventions:
* Go strings are modelled as `List Char` (the patterns in the source are ASCII).
* Go `time.Time` and `time.Duration` are modelled as `Int` nanoseconds;
  `nsPerSecond` converts the second-valued configuration fields.
* The mutable maps (`rateLimits` in `AuthManager`, `sessions` in `Bot`,
  `lastAlerts` in `MonitoringManager`) are modelled as functions
  `Int → Option _` / `List Char → Option Int`; a Go in-place mutation through
  a map pointer becomes a functional update of the map.
* Methods that read the wall clock take the current time `now` as an argument.
-/

namespace Radmin

/-- ASCII whitespace as trimmed by Go `strings.TrimSpace` (space, tab,
newline, vertical tab, form feed, carriage return). -/
def isGoSpace (c : Char) : Bool :=
  c = ' ' || c = '\t' || c = '\n' || c = '\x0b' || c = '\x0c' || c = '\r'

/-- Go `strings.TrimSpace`: drop whitespace from both ends. -/
def goTrimSpace (s : List Char) : List Char :=
  ((s.dropWhile isGoSpace).reverse.dropWhile isGoSpace).reverse

/-- Go `strings.ToLower` on ASCII text. -/
def goToLower (s : List Char) : List Char :=
  s.map Char.toLower

/-- Go `strings.Contains s sub`: does `sub` occur as a contiguous substring? -/
def goContains (s sub : List Char) : Bool :=
  if sub.isPrefixOf s then true
  else
    match s with
    | [] => false
    | _ :: t => goContains t sub

/-- Nanoseconds per second: Go `time.Second`. -/
def nsPerSecond : Int := 1000000000

/-- `telegram:` section of the configuration (the fields the core reads). -/
structure TelegramConfig where
  AllowedUsers : List Int

/-- `security:` section of the configuration. -/
structure SecurityConfig where
  SessionTimeout : Int
  RateLimitWindow : Int
  RateLimitCommands : Int

/-- `server:` section of the configuration. -/
structure ServerConfig where
  WorkingDir : List Char

/-- `monitoring:` section of the configuration.  The float64 thresholds are
modelled as rationals (the code only compares them). -/
structure MonitoringConfig where
  CPUAlertThreshold : ℚ
  MemoryAlertThreshold : ℚ
  DiskAlertThreshold : ℚ
  AlertCooldown : Int

/-- The application configuration (`config.Config`), restricted to the fields
the verified core reads. -/
structure Config where
  Telegram : TelegramConfig
  Security : SecurityConfig
  Server : ServerConfig
  Monitoring : MonitoringConfig

/-- `security.RateLimit`: rate limiting data for a user. -/
structure RateLimit where
  Commands : Int
  WindowStart : Int
deriving DecidableEq

/-- `bot.UserSession`: a user session. -/
structure UserSession where
  UserID : Int
  Username : List Char
  StartTime : Int
  LastCommand : Int
  CurrentPath : List Char
  IsAdmin : Bool
deriving DecidableEq

/-- The `rateLimits` map of `AuthManager`. -/
def RLMap : Type := Int → Option RateLimit

/-- The `sessions` map of `Bot`. -/
def SessionMap : Type := Int → Option UserSession

/-- The `lastAlerts` map of `MonitoringManager`. -/
def AlertMap : Type := List Char → Option Int

/-- Update one key of the `rateLimits` map. -/
def RLMap.update (m : RLMap) (userID : Int) (rl : RateLimit) : RLMap :=
  fun k => if k = userID then some rl else m k

/-- Update one key of the `sessions` map. -/
def SessionMap.update (m : SessionMap) (userID : Int) (s : UserSession) : SessionMap :=
  fun k => if k = userID then some s else m k

/-- Update one key of the `lastAlerts` map. -/
def AlertMap.update (m : AlertMap) (alertType : List Char) (t : Int) : AlertMap :=
  fun k => if k = alertType then some t else m k

/-- `AuthManager.IsAuthorized`: linear scan of the allow-list, true on the
first match, false after exhausting the list. -/
def IsAuthorized (cfg : Config) (userID : Int) : Bool :=
  cfg.Telegram.AllowedUsers.any (fun allowedID => userID = allowedID)

/-- `AuthManager.CheckRateLimit`, with the wall clock passed explicitly.
Returns the admission verdict together with the updated `rateLimits` map. -/
def CheckRateLimit (cfg : Config) (rateLimits : RLMap) (userID : Int) (now : Int) :
    Bool × RLMap :=
  let windowDuration := cfg.Security.RateLimitWindow * nsPerSecond
  match rateLimits userID with
  | none =>
    (true, rateLimits.update userID ⟨1, now⟩)
  | some rl =>
    if now - rl.WindowStart > windowDuration then
      (true, rateLimits.update userID ⟨1, now⟩)
    else if rl.Commands ≥ cfg.Security.RateLimitCommands then
      (false, rateLimits)
    else
      (true, rateLimits.update userID ⟨rl.Commands + 1, rl.WindowStart⟩)

/-- The `dangerousCommands` exact-match blocklist of `ValidateCommand`. -/
def dangerousCommands : List (List Char) :=
  [ ("rm -rf /").data,
    ("rm -rf /*").data,
    ("mkfs").data,
    ("dd if=/dev/zero").data,
    ("dd if=/dev/random").data,
    (":()\x7b :|:& \x7d;:").data,
    ("sudo dd").data,
    ("sudo mkfs").data,
    ("sudo rm -rf").data,
    ("> /dev/sda").data,
    ("> /dev/disk").data,
    ("fdisk").data,
    ("parted").data,
    ("cfdisk").data ]

/-- The `dangerousPatterns` substring blocklist of `ValidateCommand`. -/
def dangerousPatterns : List (List Char) :=
  [ ("rm -rf").data,
    ("rm -fr").data,
    ("rm -r /").data,
    ("rm -rf ~").data,
    ("rm -rf $HOME").data,
    (">/dev/sd").data,
    (">/dev/hd").data,
    (">/dev/disk").data,
    ("curl | sh").data,
    ("wget | sh").data,
    ("curl | bash").data,
    ("wget | bash").data,
    ("sudo passwd").data,
    ("sudo su").data,
    ("chmod 777 /").data,
    ("chown -R").data ]

/-- `AuthManager.ValidateCommand`: lower-case and trim the input, then check
the exact-match blocklist, the substring blocklist, and the two chained
`rm` heuristics; accept by default. -/
def ValidateCommand (command : List Char) : Bool :=
  let cmd := goTrimSpace (goToLower command)
  if dangerousCommands.any (fun dangerous => cmd = dangerous) then false
  else if dangerousPatterns.any (fun pattern => goContains cmd pattern) then false
  else if goContains cmd ("&&").data && goContains cmd ("rm").data then false
  else if goContains cmd (";").data && goContains cmd ("rm").data then false
  else true

/-- The `blockedPaths` exact-match blocklist of `ValidateFilePath`. -/
def blockedPaths : List (List Char) :=
  [ ("/etc/shadow").data,
    ("/etc/passwd").data,
    ("/etc/sudoers").data,
    ("/root/.ssh").data,
    ("/home/*/.ssh").data,
    ("/var/log/auth.log").data,
    ("/etc/ssh/ssh_host_rsa_key").data,
    ("/etc/ssl/private").data,
    ("/proc/kcore").data,
    ("/dev/mem").data,
    ("/dev/kmem").data ]

/-- The `blockedPatterns` substring blocklist of `ValidateFilePath`. -/
def blockedPatterns : List (List Char) :=
  [ (".ssh/id_rsa").data,
    (".ssh/id_ed25519").data,
    (".ssh/id_ecdsa").data,
    ("private_key").data,
    ("*.key").data,
    ("*.pem").data,
    ("*.p12").data,
    ("*.pfx").data ]

/-- `AuthManager.ValidateFilePath`: trim the input, then check the
exact-match blocklist, the substring blocklist, and the directory-traversal
check; accept by default. -/
def ValidateFilePath (path : List Char) : Bool :=
  let p := goTrimSpace path
  if blockedPaths.any (fun blocked => p = blocked) then false
  else if blockedPatterns.any (fun pattern => goContains p pattern) then false
  else if goContains p ("../").data || goContains p ("..\\").data then false
  else true

/-- `Bot.getOrCreateSession`, with the wall clock passed explicitly: returns
the session handed to the caller together with the updated `sessions` map
(the in-place pointer mutation of the Go code updates the stored entry). -/
def getOrCreateSession (cfg : Config) (sessions : SessionMap) (userID : Int)
    (username : List Char) (now : Int) : UserSession × SessionMap :=
  match sessions userID with
  | none =>
    let session : UserSession :=
      ⟨userID, username, now, now, cfg.Server.WorkingDir, false⟩
    (session, sessions.update userID session)
  | some session =>
    if now - session.LastCommand > cfg.Security.SessionTimeout * nsPerSecond then
      let fresh : UserSession :=
        ⟨userID, username, now, now, cfg.Server.WorkingDir, false⟩
      (fresh, sessions.update userID fresh)
    else
      let refreshed : UserSession := { session with LastCommand := now }
      (refreshed, sessions.update userID refreshed)

/-- The mutable state shared by the admission pipeline: the `rateLimits` map
of `AuthManager` and the `sessions` map of `Bot`. -/
structure BotState where
  rateLimits : RLMap
  sessions : SessionMap

/-- The admission outcome of `Bot.handleUpdate` for one inbound action. -/
inductive Outcome where
  | unauthorized
  | rateLimited
  | handled
deriving DecidableEq

/-- `Bot.handleUpdate`, abstracted over its two downstream collaborators so
that their non-evaluation on the unauthorized path is expressible:
`rate` stands for `auth.CheckRateLimit` (instantiated by `CheckRateLimit`
in the source) and `handle` for `handleMessage`/`handleCallbackQuery`
(which perform session refresh and command/path classification).
The authorization check runs first and returns before either is consulted. -/
def handleUpdate (cfg : Config) (rate : RLMap → Int → Int → Bool × RLMap)
    (handle : BotState → Int → BotState) (σ : BotState) (userID : Int)
    (now : Int) : Outcome × BotState :=
  if IsAuthorized cfg userID = false then
    (Outcome.unauthorized, σ)
  else
    let r := rate σ.rateLimits userID now
    let σ' : BotState := ⟨r.2, σ.sessions⟩
    if r.1 = false then
      (Outcome.rateLimited, σ')
    else
      (Outcome.handled, handle σ' userID)

/-- `AuthManager.ValidateCommand` as the stateful method it is in the source:
its body reads only the argument string and the hard-coded pattern tables,
so the shared state passes through untouched. -/
def ValidateCommandSt (σ : BotState) (command : List Char) : Bool × BotState :=
  (ValidateCommand command, σ)

/-- `system.MonitoringData`: the metrics of one monitoring tick.  The float64
fields are modelled as rationals. -/
structure MonitoringData where
  CPUUsage : ℚ
  MemoryUsage : ℚ
  DiskUsage : ℚ
  LoadAverage : List ℚ

/-- `MonitoringManager.shouldSendAlert`, with the wall clock explicit. -/
def shouldSendAlert (cfg : Config) (lastAlerts : AlertMap) (alertType : List Char)
    (now : Int) : Bool :=
  match lastAlerts alertType with
  | none => true
  | some lastAlert => now - lastAlert > cfg.Monitoring.AlertCooldown * nsPerSecond

/-- `MonitoringManager.updateLastAlert`, with the wall clock explicit. -/
def updateLastAlert (lastAlerts : AlertMap) (alertType : List Char) (now : Int) :
    AlertMap :=
  lastAlerts.update alertType now

/-- One threshold block of `checkSystemHealth`: if the metric breaches and the
cooldown for `alertType` has elapsed, invoke the callback (record the alert
kind in the fired list) and stamp the cooldown. -/
def alertStep (cfg : Config) (acc : List (List Char) × AlertMap) (breach : Bool)
    (alertType : List Char) (now : Int) : List (List Char) × AlertMap :=
  if breach && shouldSendAlert cfg acc.2 alertType now then
    (acc.1 ++ [alertType], updateLastAlert acc.2 alertType now)
  else
    acc

/-- `MonitoringManager.checkSystemHealth`: on a failed metrics collection
(`sample = none`) log and return without touching the cooldown state;
otherwise run the cpu, memory, disk and load threshold blocks in order.
The returned list is the sequence of alert kinds passed to the callback. -/
def checkSystemHealth (cfg : Config) (lastAlerts : AlertMap)
    (sample : Option MonitoringData) (now : Int) : List (List Char) × AlertMap :=
  match sample with
  | none => ([], lastAlerts)
  | some data =>
    let acc0 : List (List Char) × AlertMap := ([], lastAlerts)
    let acc1 := alertStep cfg acc0
      (decide (data.CPUUsage > cfg.Monitoring.CPUAlertThreshold)) (("cpu").data) now
    let acc2 := alertStep cfg acc1
      (decide (data.MemoryUsage > cfg.Monitoring.MemoryAlertThreshold)) (("memory").data) now
    let acc3 := alertStep cfg acc2
      (decide (data.DiskUsage > cfg.Monitoring.DiskAlertThreshold)) (("disk").data) now
    let loadBreach :=
      match data.LoadAverage with
      | [] => false
      | l1 :: _ => decide (l1 > (10 : ℚ))
    alertStep cfg acc3 loadBreach (("load").data) now

/-- The monitoring loop of `StartMonitoring`, unrolled over a finite schedule
of ticks; each tick carries the sampler's result (`none` = collection
failure) and the tick time.  Returns all alert kinds fired, in order, and
the final cooldown state. -/
def runTicks (cfg : Config) (lastAlerts : AlertMap) :
    List (Option MonitoringData × Int) → List (List Char) × AlertMap
  | [] => ([], lastAlerts)
  | (sample, now) :: rest =>
    let r := checkSystemHealth cfg lastAlerts sample now
    let rr := runTicks cfg r.2 rest
    (r.1 ++ rr.1, rr.2)

/-- A finite schedule of calls to `CheckRateLimit` for one user, given by the
call times; returns the verdicts in order and the final `rateLimits` map. -/
def runRateCalls (cfg : Config) (rateLimits : RLMap) (userID : Int) :
    List Int → List Bool × RLMap
  | [] => ([], rateLimits)
  | now :: rest =>
    let r := CheckRateLimit cfg rateLimits userID now
    let rr := runRateCalls cfg r.2 userID rest
    (r.1 :: rr.1, rr.2)

/-- A concrete configuration used to instantiate the theorems: 60 s session
timeout, 60 s rate window of 10 commands, default working directory `/tmp`,
thresholds 85/90/95 and a 1800 s alert cooldown. -/
def sampleCfg : Config :=
  ⟨⟨[11, 22]⟩, ⟨60, 60, 10⟩, ⟨("/tmp").data⟩, ⟨85, 90, 95, 1800⟩⟩

/-- A concrete stored session whose working path differs from the default. -/
def sampleSession : UserSession :=
  ⟨1, ("alice").data, 0, 0, ("/var").data, false⟩

/-- A concrete `sessions` map holding `sampleSession` for user 1. -/
def sampleSessions : SessionMap :=
  fun k => if k = 1 then some sampleSession else none

/-- The empty `rateLimits` map: no user has called yet. -/
def emptyRL : RLMap := fun _ => none

/-- A concrete `rateLimits` map in which user 1 has exhausted the
`sampleCfg` limit of 10 commands in the window started at time 0. -/
def fullRL : RLMap := fun k => if k = 1 then some ⟨10, 0⟩ else none

/-- The empty `lastAlerts` map: no alert has ever fired. -/
def emptyAlerts : AlertMap := fun _ => none

/-- A concrete `lastAlerts` map in which a cpu alert fired at time 0. -/
def cpuAlertAt0 : AlertMap :=
  fun k => if k = ("cpu").data then some 0 else none

/-- A concrete metrics sample whose CPU usage breaches the `sampleCfg`
threshold of 85 while memory, disk and load stay quiet. -/
def sampleData : MonitoringData := ⟨90, 0, 0, []⟩

/-! Basic facts about the string model. -/

/-- `goContains` decides substring occurrence. -/
theorem goContains_iff (sub : List Char) :
    ∀ s : List Char, goContains s sub = true ↔ sub <:+: s := by
  intro s
  induction s with
  | nil =>
    rw [goContains]
    simp
  | cons a t ih =>
    rw [goContains]
    split
    case isTrue h =>
      exact iff_of_true rfl ((List.isPrefixOf_iff_prefix.mp h).isInfix)
    case isFalse h =>
      rw [ih, List.infix_cons_iff]
      constructor
      · exact Or.inr
      · rintro (hp | hi)
        · exact absurd (List.isPrefixOf_iff_prefix.mpr hp) h
        · exact hi

/-- An occurrence of a pattern whose first character is not dropped survives
`List.dropWhile`. -/
theorem infix_dropWhile_of_head (q : Char → Bool) (sub : List Char) (c : Char)
    (hhead : sub.head? = some c) (hc : q c = false) :
    ∀ l : List Char, sub <:+: l → sub <:+: l.dropWhile q := by
  intro l
  induction l with
  | nil =>
    intro h
    rw [List.infix_nil] at h
    subst h
    simp at hhead
  | cons a t ih =>
    intro h
    rw [List.dropWhile_cons]
    by_cases ha : q a = true
    · rw [if_pos ha]
      rcases List.infix_cons_iff.mp h with hp | hi
      · obtain ⟨r, hr⟩ := hp
        cases sub with
        | nil => simp at hhead
        | cons s0 ss =>
          simp only [List.head?_cons, Option.some.injEq] at hhead
          simp only [List.cons_append, List.cons.injEq] at hr
          rw [hhead] at hr
          rw [hr.1] at hc
          rw [hc] at ha
          simp at ha
      · exact ih hi
    · rw [if_neg ha]
      exact h

/-- An occurrence of a pattern with non-whitespace first and last characters
survives `goTrimSpace`. -/
theorem infix_goTrimSpace (sub p : List Char) (c₁ c₂ : Char)
    (h1 : sub.head? = some c₁) (hc1 : isGoSpace c₁ = false)
    (h2 : sub.getLast? = some c₂) (hc2 : isGoSpace c₂ = false)
    (h : sub <:+: p) : sub <:+: goTrimSpace p := by
  unfold goTrimSpace
  have hleft : sub <:+: p.dropWhile isGoSpace :=
    infix_dropWhile_of_head isGoSpace sub c₁ h1 hc1 p h
  have hrev : sub.reverse <:+: (p.dropWhile isGoSpace).reverse :=
    List.reverse_infix.mpr hleft
  have hrevhead : sub.reverse.head? = some c₂ := by
    rw [List.head?_reverse]
    exact h2
  have hright : sub.reverse <:+: (p.dropWhile isGoSpace).reverse.dropWhile isGoSpace :=
    infix_dropWhile_of_head isGoSpace sub.reverse c₂ hrevhead hc2 _ hrev
  have := List.reverse_infix.mpr hright
  rw [List.reverse_reverse] at this
  exact this

/-! Claim theorems. -/

/-- C2: the command classifier returns the documented example verdicts:
`rm -rf /` and `rm -rf /home/user/tmp` are rejected, `ls -la` accepted,
`echo hi && rm file.txt` rejected (chaining operator plus the substring
`rm`), `echo hi && ls` accepted. -/
theorem validateCommand_examples :
    ValidateCommand (("rm -rf /").data) = false ∧
    ValidateCommand (("rm -rf /home/user/tmp").data) = false ∧
    ValidateCommand (("ls -la").data) = true ∧
    ValidateCommand (("echo hi && rm file.txt").data) = false ∧
    ValidateCommand (("echo hi && ls").data) = true := by
  refine ⟨?_, ?_, ?_, ?_, ?_⟩ <;> decide

/-- C9: command classification is deterministic and stateless: the verdict
for a string is the same whatever the shared mutable state is on either
call, and the call leaves the state untouched. -/
theorem validateCommand_deterministic :
    ∀ (σ₁ σ₂ : BotState) (x : List Char),
      (ValidateCommandSt σ₁ x).1 = (ValidateCommandSt σ₂ x).1 ∧
      (ValidateCommandSt σ₁ x).2 = σ₁ := by
  intro σ₁ σ₂ x
  exact ⟨rfl, rfl⟩

/-- C8: a failed metrics collection makes the tick fire no alert and leave
the cooldown state unchanged, and the monitoring loop goes on: the run over
a schedule beginning with the failing tick equals the run over the rest. -/
theorem metrics_failure_skips_tick (cfg : Config) (lastAlerts : AlertMap)
    (now : Int) (rest : List (Option MonitoringData × Int)) :
    checkSystemHealth cfg lastAlerts none now = ([], lastAlerts) ∧
    runTicks cfg lastAlerts ((none, now) :: rest) = runTicks cfg lastAlerts rest := by
  constructor
  · rfl
  · rw [runTicks, checkSystemHealth]
    simp

/-- C5: the path classifier returns the documented example verdicts
(`/etc/shadow` rejected by the exact-match blocklist, `../../etc/passwd`
rejected, `/home/user/notes.txt` accepted), and every path containing a
parent-directory traversal sequence (`../` or `..\`) is rejected whatever
the other rules say. -/
theorem validateFilePath_examples_and_traversal :
    (ValidateFilePath (("/etc/shadow").data) = false ∧
     ValidateFilePath (("../../etc/passwd").data) = false ∧
     ValidateFilePath (("/home/user/notes.txt").data) = true) ∧
    ∀ p : List Char,
      (("../").data <:+: p ∨ ("..\\").data <:+: p) →
      ValidateFilePath p = false := by
  constructor
  · refine ⟨?_, ?_, ?_⟩ <;> decide
  · intro p h
    have key : (goContains (goTrimSpace p) (("../").data)
        || goContains (goTrimSpace p) (("..\\").data)) = true := by
      rcases h with h | h
      · have : ("../").data <:+: goTrimSpace p :=
          infix_goTrimSpace _ p '.' '/' rfl rfl rfl rfl h
        rw [Bool.or_eq_true, goContains_iff]
        exact Or.inl this
      · have : ("..\\").data <:+: goTrimSpace p :=
          infix_goTrimSpace _ p '.' '\\' rfl rfl rfl rfl h
        rw [Bool.or_eq_true, goContains_iff, goContains_iff]
        exact Or.inr this
    rw [ValidateFilePath]
    simp [key]

/-- Witness for C5: a concrete traversal path is rejected. -/
theorem validateFilePath_traversal_witness :
    ValidateFilePath (("logs/../secret").data) = false :=
  validateFilePath_examples_and_traversal.2 (("logs/../secret").data)
    (Or.inl (by decide))

/-- C7: a stored session whose last activity is more than the session timeout
in the past is discarded: the call returns a brand-new session whose working
path is the configured default; a session within the timeout is returned
with only its last-activity timestamp refreshed. -/
theorem getOrCreateSession_timeout_and_refresh
    (cfg : Config) (m : SessionMap) (uid : Int) (name : List Char) (now : Int)
    (s : UserSession) (m₂ : SessionMap) (uid₂ : Int) (name₂ : List Char)
    (now₂ : Int) (s₂ : UserSession) :
    (m uid = some s →
     now - s.LastCommand > cfg.Security.SessionTimeout * nsPerSecond →
     getOrCreateSession cfg m uid name now =
       (⟨uid, name, now, now, cfg.Server.WorkingDir, false⟩,
        m.update uid ⟨uid, name, now, now, cfg.Server.WorkingDir, false⟩)) ∧
    (m₂ uid₂ = some s₂ →
     now₂ - s₂.LastCommand ≤ cfg.Security.SessionTimeout * nsPerSecond →
     getOrCreateSession cfg m₂ uid₂ name₂ now₂ =
       ({ s₂ with LastCommand := now₂ },
        m₂.update uid₂ { s₂ with LastCommand := now₂ })) := by
  constructor
  · intro hm ht
    simp only [getOrCreateSession, hm]
    rw [if_pos ht]
  · intro hm ht
    simp only [getOrCreateSession, hm]
    rw [if_neg (not_lt.mpr ht)]

/-- Witness for C7: with a 60 s timeout, a session last active 61 s ago is
replaced by a fresh one rooted at `/tmp`, and one last active 30 s ago is
returned with only the timestamp refreshed. -/
theorem getOrCreateSession_timeout_witness :
    getOrCreateSession sampleCfg sampleSessions 1 (("bob").data) (61 * nsPerSecond) =
      (⟨1, ("bob").data, 61 * nsPerSecond, 61 * nsPerSecond, ("/tmp").data, false⟩,
       sampleSessions.update 1
         ⟨1, ("bob").data, 61 * nsPerSecond, 61 * nsPerSecond, ("/tmp").data, false⟩) ∧
    getOrCreateSession sampleCfg sampleSessions 1 (("bob").data) (30 * nsPerSecond) =
      ({ sampleSession with LastCommand := 30 * nsPerSecond },
       sampleSessions.update 1 { sampleSession with LastCommand := 30 * nsPerSecond }) := by
  have h := getOrCreateSession_timeout_and_refresh sampleCfg sampleSessions 1
    (("bob").data) (61 * nsPerSecond) sampleSession sampleSessions 1
    (("bob").data) (30 * nsPerSecond) sampleSession
  exact ⟨h.1 rfl (by decide), h.2 rfl (by decide)⟩

/-- C10: refreshing a session within the timeout changes only its
last-activity timestamp: user id, start time, working path, admin flag and
the stored username are unchanged (the `displayName` argument, even when it
differs, does not replace the stored username), and the stored entry is the
returned session. -/
theorem getOrCreateSession_refresh_frame (cfg : Config) (m : SessionMap)
    (uid : Int) (name : List Char) (now : Int) (s : UserSession)
    (hm : m uid = some s)
    (ht : now - s.LastCommand ≤ cfg.Security.SessionTimeout * nsPerSecond) :
    (getOrCreateSession cfg m uid name now).1.UserID = s.UserID ∧
    (getOrCreateSession cfg m uid name now).1.Username = s.Username ∧
    (getOrCreateSession cfg m uid name now).1.StartTime = s.StartTime ∧
    (getOrCreateSession cfg m uid name now).1.CurrentPath = s.CurrentPath ∧
    (getOrCreateSession cfg m uid name now).1.IsAdmin = s.IsAdmin ∧
    (getOrCreateSession cfg m uid name now).1.LastCommand = now ∧
    (getOrCreateSession cfg m uid name now).2 uid =
      some (getOrCreateSession cfg m uid name now).1 := by
  simp only [getOrCreateSession, hm]
  rw [if_neg (not_lt.mpr ht)]
  refine ⟨rfl, rfl, rfl, rfl, rfl, rfl, ?_⟩
  simp [SessionMap.update]

/-- Witness for C10: a refresh under a different display name keeps the
stored username. -/
theorem getOrCreateSession_refresh_frame_witness :
    (getOrCreateSession sampleCfg sampleSessions 1 (("bob").data)
        (30 * nsPerSecond)).1.Username = sampleSession.Username ∧
    (getOrCreateSession sampleCfg sampleSessions 1 (("bob").data)
        (30 * nsPerSecond)).1.LastCommand = 30 * nsPerSecond := by
  have h := getOrCreateSession_refresh_frame sampleCfg sampleSessions 1
    (("bob").data) (30 * nsPerSecond) sampleSession rfl (by decide)
  exact ⟨h.2.1, h.2.2.2.2.2.1⟩

/-- A call inside the current window admits and increments exactly when the
count is below the limit, and never moves the window start. -/
theorem CheckRateLimit_within (cfg : Config) (m : RLMap) (uid now c t0 : Int)
    (hm : m uid = some ⟨c, t0⟩)
    (hwin : now - t0 ≤ cfg.Security.RateLimitWindow * nsPerSecond) :
    CheckRateLimit cfg m uid now =
      if c < cfg.Security.RateLimitCommands then
        (true, m.update uid ⟨c + 1, t0⟩)
      else
        (false, m) := by
  simp only [CheckRateLimit, hm]
  rw [if_neg (not_lt.mpr hwin)]
  by_cases hc : c < cfg.Security.RateLimitCommands
  · rw [if_neg (not_le.mpr hc), if_pos hc]
  · rw [if_pos (not_lt.mp hc), if_neg hc]

/-- Running a schedule of in-window calls from a count of `c`, the verdict of
the `i`-th call (counting from 0) is `c + i < limit`, and the entry keeps
the original window start. -/
theorem runRateCalls_within (cfg : Config) (uid t0 : Int) :
    ∀ (ts : List Int) (m : RLMap) (c : Int),
      m uid = some ⟨c, t0⟩ →
      (∀ t ∈ ts, t - t0 ≤ cfg.Security.RateLimitWindow * nsPerSecond) →
      (∀ i, i < ts.length →
        (runRateCalls cfg m uid ts).1[i]? =
          some (decide (c + (i : Int) < cfg.Security.RateLimitCommands))) ∧
      ∃ c', (runRateCalls cfg m uid ts).2 uid = some ⟨c', t0⟩ := by
  intro ts
  induction ts with
  | nil =>
    intro m c hm _
    exact ⟨fun i hi => absurd hi (by simp), c, hm⟩
  | cons t ts ih =>
    intro m c hm hts
    have hwin : t - t0 ≤ cfg.Security.RateLimitWindow * nsPerSecond :=
      hts t (List.mem_cons_self t ts)
    rw [runRateCalls]
    rw [CheckRateLimit_within cfg m uid t c t0 hm hwin]
    by_cases hc : c < cfg.Security.RateLimitCommands
    · rw [if_pos hc]
      have hm' : (m.update uid ⟨c + 1, t0⟩) uid = some ⟨c + 1, t0⟩ := by
        simp [RLMap.update]
      obtain ⟨hres, c', hc'⟩ :=
        ih (m.update uid ⟨c + 1, t0⟩) (c + 1) hm'
          (fun u hu => hts u (List.mem_cons_of_mem t hu))
      refine ⟨?_, c', hc'⟩
      intro i hi
      cases i with
      | zero => simp [hc]
      | succ j =>
        have hj : j < ts.length := by simpa using hi
        have := hres j hj
        simp only [List.getElem?_cons_succ]
        rw [this]
        refine congrArg some (decide_eq_decide.mpr ?_)
        push_cast
        omega
    · rw [if_neg hc]
      obtain ⟨hres, c', hc'⟩ :=
        ih m c hm (fun u hu => hts u (List.mem_cons_of_mem t hu))
      refine ⟨?_, c', hc'⟩
      intro i hi
      cases i with
      | zero => simp [hc]
      | succ j =>
        have hj : j < ts.length := by simpa using hi
        have := hres j hj
        simp only [List.getElem?_cons_succ]
        rw [this]
        refine congrArg some (decide_eq_decide.mpr ?_)
        push_cast
        constructor
        · intro h
          omega
        · intro h
          omega

/-- C3: the first-ever call for an identity creates its entry with count 1
and is admitted, and within one window the call with 0-based index `i`
(that is, the Nth call with N = i + 1) is admitted exactly when
N ≤ `RateLimitCommands`, and rejected for every later call. -/
theorem checkRateLimit_first_window (cfg : Config) (m : RLMap) (uid t0 : Int)
    (ts : List Int)
    (hnone : m uid = none)
    (hts : ∀ t ∈ ts, t0 ≤ t ∧ t - t0 < cfg.Security.RateLimitWindow * nsPerSecond)
    (hmax : 1 ≤ cfg.Security.RateLimitCommands) :
    (CheckRateLimit cfg m uid t0).1 = true ∧
    (CheckRateLimit cfg m uid t0).2 uid = some ⟨1, t0⟩ ∧
    ∀ i, i < ts.length + 1 →
      (runRateCalls cfg m uid (t0 :: ts)).1[i]? =
        some (decide ((i : Int) + 1 ≤ cfg.Security.RateLimitCommands)) := by
  have hstep : CheckRateLimit cfg m uid t0 = (true, m.update uid ⟨1, t0⟩) := by
    simp only [CheckRateLimit, hnone]
  have hupd : (m.update uid ⟨1, t0⟩) uid = some ⟨1, t0⟩ := by
    simp [RLMap.update]
  refine ⟨by rw [hstep], by rw [hstep]; exact hupd, ?_⟩
  obtain ⟨hres, -⟩ :=
    runRateCalls_within cfg uid t0 ts (m.update uid ⟨1, t0⟩) 1 hupd
      (fun u hu => le_of_lt (hts u hu).2)
  intro i hi
  rw [runRateCalls, hstep]
  cases i with
  | zero =>
    have h0 : decide (((0 : ℕ) : Int) + 1 ≤ cfg.Security.RateLimitCommands) = true := by
      simpa using hmax
    rw [h0]
    simp
  | succ j =>
    have hj : j < ts.length := by simpa using hi
    have := hres j hj
    simp only [List.getElem?_cons_succ]
    rw [this]
    refine congrArg some (decide_eq_decide.mpr ?_)
    push_cast
    omega

/-- Witness for C3: user 1's first three calls inside one 60 s window against
the 10-command limit: the entry starts at count 1 and the second call (index
1, N = 2 ≤ 10) admits. -/
theorem checkRateLimit_first_window_witness :
    (CheckRateLimit sampleCfg emptyRL 1 0).1 = true ∧
    (CheckRateLimit sampleCfg emptyRL 1 0).2 1 = some ⟨1, 0⟩ ∧
    (runRateCalls sampleCfg emptyRL 1 [0, nsPerSecond, 2 * nsPerSecond]).1[1]? =
      some true := by
  have h := checkRateLimit_first_window sampleCfg emptyRL 1 0
    [nsPerSecond, 2 * nsPerSecond] rfl (by decide) (by decide)
  refine ⟨h.1, h.2.1, ?_⟩
  rw [h.2.2 1 (by decide)]
  decide

/-- C4: after a window opened at `t0` and any calls inside the window, a call
later than `t0` plus the window length is admitted and resets the entry to
count 1 at the new time; and a rejected call never mutates the map, so
rejections cannot extend the window. -/
theorem checkRateLimit_window_reset (cfg : Config) (m : RLMap) (uid t0 : Int)
    (ts : List Int) (tl : Int) (m₂ : RLMap) (uid₂ now₂ : Int)
    (hnone : m uid = none)
    (hts : ∀ t ∈ ts, t0 ≤ t ∧ t - t0 ≤ cfg.Security.RateLimitWindow * nsPerSecond)
    (hlate : tl - t0 > cfg.Security.RateLimitWindow * nsPerSecond) :
    ((CheckRateLimit cfg
        (runRateCalls cfg (CheckRateLimit cfg m uid t0).2 uid ts).2 uid tl).1 = true ∧
     (CheckRateLimit cfg
        (runRateCalls cfg (CheckRateLimit cfg m uid t0).2 uid ts).2 uid tl).2 uid =
       some ⟨1, tl⟩) ∧
    ((CheckRateLimit cfg m₂ uid₂ now₂).1 = false →
     (CheckRateLimit cfg m₂ uid₂ now₂).2 = m₂) := by
  constructor
  · have hstep : CheckRateLimit cfg m uid t0 = (true, m.update uid ⟨1, t0⟩) := by
      simp only [CheckRateLimit, hnone]
    have hupd : (m.update uid ⟨1, t0⟩) uid = some ⟨1, t0⟩ := by
      simp [RLMap.update]
    rw [hstep]
    obtain ⟨-, c', hc'⟩ :=
      runRateCalls_within cfg uid t0 ts (m.update uid ⟨1, t0⟩) 1 hupd
        (fun u hu => (hts u hu).2)
    simp only [CheckRateLimit, hc']
    rw [if_pos hlate]
    exact ⟨rfl, by simp [RLMap.update]⟩
  · intro hfalse
    cases hm2 : m₂ uid₂ with
    | none =>
      simp only [CheckRateLimit, hm2] at hfalse
      exact absurd hfalse (by decide)
    | some rl =>
      simp only [CheckRateLimit, hm2] at hfalse ⊢
      by_cases h1 : now₂ - rl.WindowStart > cfg.Security.RateLimitWindow * nsPerSecond
      · rw [if_pos h1] at hfalse
        simp at hfalse
      · rw [if_neg h1] at hfalse ⊢
        by_cases h2 : rl.Commands ≥ cfg.Security.RateLimitCommands
        · rw [if_pos h2]
        · rw [if_neg h2] at hfalse
          simp at hfalse

/-- Witness for C4: a call 61 s after the window opened resets the entry,
and a rejected call (user 1 at the 10-command limit) leaves the map as is. -/
theorem checkRateLimit_window_reset_witness :
    ((CheckRateLimit sampleCfg
        (runRateCalls sampleCfg (CheckRateLimit sampleCfg emptyRL 1 0).2 1
          [nsPerSecond]).2 1 (61 * nsPerSecond)).1 = true ∧
     (CheckRateLimit sampleCfg
        (runRateCalls sampleCfg (CheckRateLimit sampleCfg emptyRL 1 0).2 1
          [nsPerSecond]).2 1 (61 * nsPerSecond)).2 1 = some ⟨1, 61 * nsPerSecond⟩) ∧
    (CheckRateLimit sampleCfg fullRL 1 nsPerSecond).2 = fullRL := by
  have h := checkRateLimit_window_reset sampleCfg emptyRL 1 0 [nsPerSecond]
    (61 * nsPerSecond) fullRL 1 nsPerSecond rfl (by decide) (by decide)
  exact ⟨h.1, h.2 (by decide)⟩

/-- C1: an identity outside the allow-list gets `IsAuthorized = false`, and
`handleUpdate` then returns `unauthorized` with the rate-limit and session
maps untouched, whatever the rate limiter and the downstream message handler
(session refresh and command classification) would do — they are never
evaluated. -/
theorem unauthorized_short_circuit (cfg : Config) (userID : Int)
    (hmem : userID ∉ cfg.Telegram.AllowedUsers) :
    IsAuthorized cfg userID = false ∧
    ∀ (rate : RLMap → Int → Int → Bool × RLMap)
      (handle : BotState → Int → BotState) (σ : BotState) (now : Int),
      handleUpdate cfg rate handle σ userID now = (Outcome.unauthorized, σ) := by
  have hauth : IsAuthorized cfg userID = false := by
    rw [IsAuthorized, List.any_eq_false]
    intro a ha
    simp only [decide_eq_true_eq]
    intro h
    exact hmem (h ▸ ha)
  refine ⟨hauth, ?_⟩
  intro rate handle σ now
  rw [handleUpdate, if_pos hauth]

/-- Witness for C1: user 5 is not in the sample allow-list; the pipeline
rejects without touching the maps, here instantiated with the real rate
limiter and an arbitrary continuation. -/
theorem unauthorized_short_circuit_witness :
    IsAuthorized sampleCfg 5 = false ∧
    handleUpdate sampleCfg (CheckRateLimit sampleCfg) (fun σ _ => σ)
      ⟨emptyRL, sampleSessions⟩ 5 0 =
      (Outcome.unauthorized, ⟨emptyRL, sampleSessions⟩) := by
  have h := unauthorized_short_circuit sampleCfg 5 (by decide)
  exact ⟨h.1, h.2 (CheckRateLimit sampleCfg) (fun σ _ => σ) ⟨emptyRL, sampleSessions⟩ 0⟩

/-- A threshold block never fires an alert kind that is still cooling down,
and leaves that kind's stamp in place. -/
theorem alertStep_cooling (cfg : Config) (acc : List (List Char) × AlertMap)
    (breach : Bool) (alertType kind : List Char) (t now : Int)
    (hnow : now - t ≤ cfg.Monitoring.AlertCooldown * nsPerSecond)
    (h : acc.2 kind = some t ∧ kind ∉ acc.1) :
    (alertStep cfg acc breach alertType now).2 kind = some t ∧
    kind ∉ (alertStep cfg acc breach alertType now).1 := by
  obtain ⟨hst, hfired⟩ := h
  rw [alertStep]
  by_cases hk : alertType = kind
  · subst hk
    have hssa : shouldSendAlert cfg acc.2 alertType now = false := by
      simp only [shouldSendAlert, hst, decide_eq_false_iff_not]
      exact not_lt.mpr hnow
    rw [hssa]
    simp only [Bool.and_false, Bool.false_eq_true, if_false]
    exact ⟨hst, hfired⟩
  · split
    · constructor
      · simp only [updateLastAlert, AlertMap.update]
        rw [if_neg (fun hkk => hk hkk.symm)]
        exact hst
      · simp only [List.mem_append, List.mem_singleton]
        rintro (hin | hin)
        · exact hfired hin
        · exact hk hin.symm
    · exact ⟨hst, hfired⟩

/-- A whole monitoring tick never fires an alert kind that is still cooling
down, and leaves that kind's stamp in place. -/
theorem checkSystemHealth_cooling (cfg : Config) (st : AlertMap)
    (sample : Option MonitoringData) (now : Int) (kind : List Char) (t : Int)
    (hst : st kind = some t)
    (hnow : now - t ≤ cfg.Monitoring.AlertCooldown * nsPerSecond) :
    (checkSystemHealth cfg st sample now).2 kind = some t ∧
    kind ∉ (checkSystemHealth cfg st sample now).1 := by
  cases sample with
  | none => exact ⟨hst, by simp [checkSystemHealth]⟩
  | some data =>
    simp only [checkSystemHealth]
    exact alertStep_cooling cfg _ _ _ kind t now hnow
      (alertStep_cooling cfg _ _ _ kind t now hnow
        (alertStep_cooling cfg _ _ _ kind t now hnow
          (alertStep_cooling cfg _ _ _ kind t now hnow ⟨hst, by simp⟩)))

/-- Over a whole schedule of ticks, an alert kind that is cooling down for
the entire schedule never fires and keeps its stamp. -/
theorem runTicks_cooling (cfg : Config) (kind : List Char) (t : Int) :
    ∀ (ticks : List (Option MonitoringData × Int)) (st : AlertMap),
      st kind = some t →
      (∀ p ∈ ticks, p.2 - t ≤ cfg.Monitoring.AlertCooldown * nsPerSecond) →
      (runTicks cfg st ticks).2 kind = some t ∧
      kind ∉ (runTicks cfg st ticks).1 := by
  intro ticks
  induction ticks with
  | nil =>
    intro st hst _
    exact ⟨hst, by simp [runTicks]⟩
  | cons p ticks ih =>
    intro st hst hp
    obtain ⟨sample, now⟩ := p
    have h1 := checkSystemHealth_cooling cfg st sample now kind t hst
      (hp _ (List.mem_cons_self _ _))
    have h2 := ih (checkSystemHealth cfg st sample now).2 h1.1
      (fun q hq => hp q (List.mem_cons_of_mem _ hq))
    rw [runTicks]
    refine ⟨h2.1, ?_⟩
    simp only [List.mem_append]
    rintro (hin | hin)
    · exact h1.2 hin
    · exact h2.2 hin

/-- A threshold block for a different alert kind adds no firing of `kind`
and does not move `kind`'s stamp. -/
theorem alertStep_other (cfg : Config) (acc : List (List Char) × AlertMap)
    (breach : Bool) (alertType kind : List Char) (now : Int)
    (hk : alertType ≠ kind) :
    (alertStep cfg acc breach alertType now).1.count kind = acc.1.count kind ∧
    (alertStep cfg acc breach alertType now).2 kind = acc.2 kind := by
  rw [alertStep]
  split
  · constructor
    · simp [List.count_append, List.count_cons, List.count_nil, hk]
    · simp only [updateLastAlert, AlertMap.update]
      rw [if_neg (fun hkk => hk hkk.symm)]
  · exact ⟨rfl, rfl⟩

/-- A tick whose sample breaches the CPU threshold while no cpu alert has
ever fired invokes the callback exactly once for cpu and stamps the time. -/
theorem checkSystemHealth_cpu_fires (cfg : Config) (st : AlertMap)
    (data : MonitoringData) (now : Int)
    (h0 : st (("cpu").data) = none)
    (hcpu : data.CPUUsage > cfg.Monitoring.CPUAlertThreshold) :
    (checkSystemHealth cfg st (some data) now).1.count (("cpu").data) = 1 ∧
    (checkSystemHealth cfg st (some data) now).2 (("cpu").data) = some now := by
  simp only [checkSystemHealth]
  have hb : decide (data.CPUUsage > cfg.Monitoring.CPUAlertThreshold) = true :=
    decide_eq_true hcpu
  rw [hb]
  have hstep1 : alertStep cfg ([], st) true (("cpu").data) now =
      ([("cpu").data], updateLastAlert st (("cpu").data) now) := by
    simp [alertStep, shouldSendAlert, h0]
  rw [hstep1]
  constructor
  · rw [(alertStep_other cfg _ _ (("load").data) (("cpu").data) now (by decide)).1,
      (alertStep_other cfg _ _ (("disk").data) (("cpu").data) now (by decide)).1,
      (alertStep_other cfg _ _ (("memory").data) (("cpu").data) now (by decide)).1]
    simp
  · rw [(alertStep_other cfg _ _ (("load").data) (("cpu").data) now (by decide)).2,
      (alertStep_other cfg _ _ (("disk").data) (("cpu").data) now (by decide)).2,
      (alertStep_other cfg _ _ (("memory").data) (("cpu").data) now (by decide)).2]
    simp [updateLastAlert, AlertMap.update]

/-- C6: once an alert kind carries a cooldown stamp `t`, no tick strictly
before `t` plus the cooldown fires that kind again — whether the samples
keep breaching, recover and breach again, or fail — and the stamp stays at
`t` (recovery never clears it); and two consecutive cpu-breaching ticks
within one cooldown fire the cpu callback exactly once. -/
theorem alert_cooldown_dedup (cfg : Config) (st : AlertMap) (kind : List Char)
    (t : Int) (ticks : List (Option MonitoringData × Int)) (st₂ : AlertMap)
    (data : MonitoringData) (t₁ t₂ : Int) :
    (st kind = some t →
     (∀ p ∈ ticks, p.2 < t + cfg.Monitoring.AlertCooldown * nsPerSecond) →
     kind ∉ (runTicks cfg st ticks).1 ∧
     (runTicks cfg st ticks).2 kind = some t) ∧
    (st₂ (("cpu").data) = none →
     data.CPUUsage > cfg.Monitoring.CPUAlertThreshold →
     t₂ - t₁ ≤ cfg.Monitoring.AlertCooldown * nsPerSecond →
     (runTicks cfg st₂
        [(some data, t₁), (some data, t₂)]).1.count (("cpu").data) = 1) := by
  constructor
  · intro hst hts
    have h := runTicks_cooling cfg kind t ticks st hst
      (fun p hp => by have := hts p hp; linarith)
    exact ⟨h.2, h.1⟩
  · intro h0 hcpu hcool
    have h1 := checkSystemHealth_cpu_fires cfg st₂ data t₁ h0 hcpu
    have h2 := checkSystemHealth_cooling cfg
      (checkSystemHealth cfg st₂ (some data) t₁).2 (some data) t₂
      (("cpu").data) t₁ h1.2 hcool
    simp only [runTicks]
    rw [List.count_append, List.count_append]
    rw [h1.1, List.count_eq_zero.mpr h2.2, List.count_nil]

/-- Witness for C6: with the 1800 s cooldown, a cpu stamp at time 0 blocks a
breaching tick one second later, and two breaching ticks one second apart
from a clean state fire exactly once. -/
theorem alert_cooldown_dedup_witness :
    ((("cpu").data ∉
        (runTicks sampleCfg cpuAlertAt0 [(some sampleData, nsPerSecond)]).1 ∧
      (runTicks sampleCfg cpuAlertAt0
        [(some sampleData, nsPerSecond)]).2 (("cpu").data) = some 0) ∧
     (runTicks sampleCfg emptyAlerts
        [(some sampleData, 0), (some sampleData, nsPerSecond)]).1.count
          (("cpu").data) = 1) := by
  have h := alert_cooldown_dedup sampleCfg cpuAlertAt0 (("cpu").data) 0
    [(some sampleData, nsPerSecond)] emptyAlerts sampleData 0 nsPerSecond
  refine ⟨h.1 (by decide) (by decide), h.2 rfl (by decide) (by decide)⟩

end Radmin
